import Mathlib

/-!
# kubeconfig-updater: cluster metadata aggregation and status resolution

A shallow embedding of `backend/pkg/service/cluster_metadata_service/service.go`.

Modelling conventions.

* Go `map[string]T` values are `GoMap T`: an association list whose keys are
  pairwise distinct (a Go map cannot hold one key twice).  A write `m[k] = v`
  replaces the value of `k` in place or appends a new entry.  The iteration
  order of a Go map is unspecified; the theorems below speak about lookups and
  membership only.
* Pointers to protobuf messages are values: the records that the sources list
  are taken not to share their tag maps with one another.  The one pointer the source
  receives that is legitimately `nil` (the config returned by
  `GetCredResolver`) is an `Option`, and dereferencing it when it is `nil`
  is a runtime failure, modelled by the result `none`.
* Calls that leave the process (listing clusters, building a resolver, saving
  the storage) are represented by their outcome in the pass under study.
-/

namespace KubeconfigUpdater

/-! ## Definitions -/

/-! ### Go maps -/

/-- Value stored under key `k` in an entry list, `none` when the key is absent. -/
def getEntry {β : Type} (k : String) : List (String × β) → Option β
  | [] => none
  | e :: es => if e.1 = k then some e.2 else getEntry k es

/-- Entry list after the write `m[k] = v`. -/
def setEntry {β : Type} (k : String) (v : β) : List (String × β) → List (String × β)
  | [] => [(k, v)]
  | e :: es => if e.1 = k then (k, v) :: es else e :: setEntry k v es

/-- A Go `map[string]β`: entries with pairwise distinct keys. -/
structure GoMap (β : Type) where
  entries : List (String × β)
  nodup : (entries.map Prod.fst).Nodup

/-- The empty map `map[string]β{}`. -/
def GoMap.empty {β : Type} : GoMap β := ⟨[], List.nodup_nil⟩

/-- Lookup `v, exists := m[k]`. -/
def GoMap.get {β : Type} (m : GoMap β) (k : String) : Option β := getEntry k m.entries

/-- Write `m[k] = v`. -/
def GoMap.set {β : Type} (m : GoMap β) (k : String) (v : β) : GoMap β :=
  ⟨setEntry k v m.entries, by
    have hkeys : ∀ es : List (String × β), (setEntry k v es).map Prod.fst =
        if k ∈ es.map Prod.fst then es.map Prod.fst else es.map Prod.fst ++ [k] := by
      intro es
      induction es with
      | nil => simp [setEntry]
      | cons e es ih =>
        by_cases h : e.1 = k
        · simp [setEntry, h]
        · have h' : ¬ k = e.1 := fun h2 => h h2.symm
          simp only [setEntry, h, if_false, List.map_cons, ih, List.mem_cons, h', false_or]
          split <;> simp
    rw [hkeys]
    split
    · exact m.nodup
    · rename_i hk
      rw [List.nodup_append]
      refine ⟨m.nodup, List.nodup_singleton k, ?_⟩
      intro a ha hb
      simp only [List.mem_singleton] at hb
      exact hk (hb ▸ ha)⟩

/-- Values of the map, as visited by one `range` loop. -/
def GoMap.values {β : Type} (m : GoMap β) : List β := m.entries.map Prod.snd

/-- Keys of the map. -/
def GoMap.keys {β : Type} (m : GoMap β) : List String := m.entries.map Prod.fst

instance {β : Type} [DecidableEq β] : DecidableEq (GoMap β) := fun a b =>
  if h : a.entries = b.entries then
    isTrue (by cases a; cases b; cases h; rfl)
  else isFalse (fun hab => h (hab ▸ rfl))

/-! ### Protobuf messages -/

/-- Modelled from the spec: `protos.ClusterInformationStatus` is declared outside the
available sources; the spec gives it as a closed enum of six values, provenance
(registered, suggestion) by credential health (ok, no resolver, resolver not ok).
The constructor names are the ones the source uses. -/
inductive ClusterInformationStatus where
  | REGISTERED_OK
  | REGISTERED_NOTOK_NO_CRED_RESOLVER
  | REGISTERED_NOTOK_CRED_RES_NOTOK
  | SUGGESTION_OK
  | SUGGESTION_NOTOK_NO_CRED_RESOLVER
  | SUGGESTION_NOTOK_CRED_RES_NOTOK
  deriving DecidableEq, Repr

/-- Modelled from the spec: `protos.CredentialResolverStatus` is declared outside the
available sources; the spec gives `status: enum{OK, NOT_OK, ...}`.  The source names
only `CRED_REGISTERED_OK`; every other value of the enum is `OTHER n`. -/
inductive CredentialResolverStatus where
  | CRED_REGISTERED_OK
  | OTHER (n : Nat)
  deriving DecidableEq, Repr

/-- Modelled from the spec: `protos.CredResolverConfig` is declared outside the
available sources; the fields are the ones the source reads
(`cr.AccountId`, `cr.InfraVendor`, `credResolver.Status`). -/
structure CredResolverConfig where
  AccountId : String
  InfraVendor : String
  Status : CredentialResolverStatus
  deriving DecidableEq, Repr

/-- Modelled from the spec: `protos.ClusterMetadata` is declared outside the available
sources; the fields are the three that `mergeMetadata` fills.  `ClusterTags = none`
is the `nil` map. -/
structure ClusterMetadata where
  ClusterName : String
  CredResolverId : String
  ClusterTags : Option (GoMap String)
  deriving DecidableEq

/-- Modelled from the spec: `protos.AggregatedClusterMetadata` is declared outside the
available sources; the fields are the three that `SyncAvailableClusters` fills. -/
structure AggregatedClusterMetadata where
  Metadata : ClusterMetadata
  DataResolvers : List String
  Status : ClusterInformationStatus
  deriving DecidableEq

/-! ### mergeMetadata (service.go 134-156) -/

/-- The loop `for k, v := range b.ClusterTags { merged.ClusterTags[k] = v }`. -/
def writeTags (tags : GoMap String) (b : GoMap String) : GoMap String :=
  b.entries.foldl (fun m kv => m.set kv.1 kv.2) tags

/-- Embedding of `mergeMetadata`. -/
def mergeMetadata (a b : ClusterMetadata) : ClusterMetadata :=
  let credResolverId := ""
  let clusterTags : GoMap String := GoMap.empty
  let credResolverId := if a.CredResolverId ≠ "" then a.CredResolverId else credResolverId
  let credResolverId := if b.CredResolverId ≠ "" then b.CredResolverId else credResolverId
  let clusterTags := match a.ClusterTags with
    | some t => t
    | none => clusterTags
  let clusterTags := match b.ClusterTags with
    | some t => writeTags clusterTags t
    | none => clusterTags
  { ClusterName := a.ClusterName, CredResolverId := credResolverId,
    ClusterTags := some clusterTags }

/-! ### getClusterInfoStatus (service.go 117-132) -/

/-- The triple `(*protos.CredResolverConfig, bool, error)` returned by
`credStoreService.GetCredResolver`; `found` is the boolean the source calls `exists`. -/
structure GetCredResolverResult where
  credResolver : Option CredResolverConfig
  found : Bool
  err : Option String
  deriving DecidableEq

/-- Embedding of `getClusterInfoStatus`.  The credential store is the function
`GetCredResolver`.  The result `none` is the nil-pointer dereference of
`credResolver.Status` when the store reports `exists` with a `nil` config. -/
def getClusterInfoStatus (GetCredResolver : String → GetCredResolverResult)
    (credResolverId : String) : Option String :=
  if credResolverId = "" then some "not_exists"
  else
    let r := GetCredResolver credResolverId
    if r.err ≠ none then some "not_ok"
    else if ¬ r.found then some "not_exists"
    else
      match r.credResolver with
      | none => none
      | some credResolver =>
        if credResolver.Status = CredentialResolverStatus.CRED_REGISTERED_OK then some "ok"
        else some "not_ok"

/-! ### Discovery sources and the aggregation loop (service.go 57-82) -/

/-- One `ClusterMetadataResolver` as seen by a single sync pass. -/
structure ClusterMetadataResolver where
  /-- Value of `GetResolverDescription()`. -/
  GetResolverDescription : String
  /-- Whether the type assertion `resolver.(*KubeconfigResolver)` succeeds. -/
  isKubeconfigResolver : Bool
  /-- Outcome of `ListClusters()` in this pass. -/
  ListClusters : Except String (List ClusterMetadata)

/-- The two local maps of `SyncAvailableClusters`. -/
structure SyncAcc where
  regedMetaMap : GoMap Bool
  availMetaMap : GoMap AggregatedClusterMetadata

/-- State of the two maps at line 58. -/
def SyncAcc.init : SyncAcc := ⟨GoMap.empty, GoMap.empty⟩

/-- Body of the inner loop (lines 67-80) for one `metadata` of `resolver`. -/
def foldMetadata (resolver : ClusterMetadataResolver) (acc : SyncAcc)
    (metadata : ClusterMetadata) : SyncAcc :=
  let availMetaMap :=
    match acc.availMetaMap.get metadata.ClusterName with
    | some aggrMeta =>
      acc.availMetaMap.set metadata.ClusterName
        { aggrMeta with
          Metadata := mergeMetadata aggrMeta.Metadata metadata,
          DataResolvers := aggrMeta.DataResolvers ++ [resolver.GetResolverDescription] }
    | none =>
      acc.availMetaMap.set metadata.ClusterName
        { Metadata := metadata,
          DataResolvers := [resolver.GetResolverDescription],
          Status := ClusterInformationStatus.SUGGESTION_OK }
  let regedMetaMap :=
    if resolver.isKubeconfigResolver then acc.regedMetaMap.set metadata.ClusterName true
    else acc.regedMetaMap
  { regedMetaMap := regedMetaMap, availMetaMap := availMetaMap }

/-- Body of the outer loop (lines 60-81) for one `resolver`: a failed `ListClusters`
is logged and skipped. -/
def foldResolver (acc : SyncAcc) (resolver : ClusterMetadataResolver) : SyncAcc :=
  match resolver.ListClusters with
  | .error _ => acc
  | .ok metadatas => metadatas.foldl (foldMetadata resolver) acc

/-- The outer loop (lines 59-82) started from the accumulator `acc`. -/
def aggregateFrom (acc : SyncAcc) (resolvers : List ClusterMetadataResolver) : SyncAcc :=
  resolvers.foldl foldResolver acc

/-- Lines 57-82: both maps after the loop over all resolvers. -/
def aggregateClusters (resolvers : List ClusterMetadataResolver) : SyncAcc :=
  aggregateFrom SyncAcc.init resolvers

/-! ### Status assignment (service.go 84-108) -/

/-- Body of the loop at lines 84-103 for one `meta`; `none` when
`getClusterInfoStatus` fails. -/
def assignStatus (GetCredResolver : String → GetCredResolverResult)
    (regedMetaMap : GoMap Bool) (aggr : AggregatedClusterMetadata) :
    Option AggregatedClusterMetadata :=
  match getClusterInfoStatus GetCredResolver aggr.Metadata.CredResolverId with
  | none => none
  | some status =>
    if (regedMetaMap.get aggr.Metadata.ClusterName).isSome then
      if status = "not_exists" then
        some { aggr with Status := ClusterInformationStatus.REGISTERED_NOTOK_NO_CRED_RESOLVER }
      else if status = "not_ok" then
        some { aggr with Status := ClusterInformationStatus.REGISTERED_NOTOK_CRED_RES_NOTOK }
      else if status = "ok" then
        some { aggr with Status := ClusterInformationStatus.REGISTERED_OK }
      else some aggr
    else
      if status = "not_exists" then
        some { aggr with Status := ClusterInformationStatus.SUGGESTION_NOTOK_NO_CRED_RESOLVER }
      else if status = "not_ok" then
        some { aggr with Status := ClusterInformationStatus.SUGGESTION_NOTOK_CRED_RES_NOTOK }
      else if status = "ok" then
        some { aggr with Status := ClusterInformationStatus.SUGGESTION_OK }
      else some aggr

/-- The loop at lines 84-103 over the values of `availMetaMap`, followed by the
collection into `metas` (lines 105-108). -/
def assignAll (GetCredResolver : String → GetCredResolverResult) (regedMetaMap : GoMap Bool) :
    List AggregatedClusterMetadata → Option (List AggregatedClusterMetadata)
  | [] => some []
  | aggr :: rest =>
    match assignStatus GetCredResolver regedMetaMap aggr with
    | none => none
    | some aggr' =>
      match assignAll GetCredResolver regedMetaMap rest with
      | none => none
      | some rest' => some (aggr' :: rest')

/-- Lines 57-108: the slice `metas` that is handed to `s.cache.ClearAndSet`. -/
def syncMetas (GetCredResolver : String → GetCredResolverResult)
    (resolvers : List ClusterMetadataResolver) : Option (List AggregatedClusterMetadata) :=
  let acc := aggregateClusters resolvers
  assignAll GetCredResolver acc.regedMetaMap acc.availMetaMap.values

/-! ### The aggregated store -/

/-- Modelled from the spec: `cluster_metadata_persist.AggregatedClusterMetadataStorage`
is not among the available sources.  Following the spec's Aggregated Store, it holds
the in-memory snapshot, one record per cluster name, and the snapshot that was last
durably persisted. -/
structure AggregatedClusterMetadataStorage where
  snapshot : List AggregatedClusterMetadata
  persisted : List AggregatedClusterMetadata
  deriving DecidableEq

namespace AggregatedClusterMetadataStorage

/-- Modelled from the spec: `list()` returns the records of the current snapshot. -/
def ListAggrMetadata (c : AggregatedClusterMetadataStorage) : List AggregatedClusterMetadata :=
  c.snapshot

/-- Modelled from the spec: `get(clusterName)` returns the record of the snapshot with
that cluster name and whether it was found. -/
def GetAggrMetadata (c : AggregatedClusterMetadataStorage) (clusterName : String) :
    Option AggregatedClusterMetadata :=
  c.snapshot.find? (fun m => decide (m.Metadata.ClusterName = clusterName))

/-- Replace the record that carries the cluster name of `aggr`, or append `aggr`. -/
def upsert (aggr : AggregatedClusterMetadata) :
    List AggregatedClusterMetadata → List AggregatedClusterMetadata
  | [] => [aggr]
  | m :: ms =>
    if m.Metadata.ClusterName = aggr.Metadata.ClusterName then aggr :: ms
    else m :: upsert aggr ms

/-- Modelled from the spec: `ClearAndSet` swaps the in-memory snapshot to the new
records (first half of `replaceAndPersist`). -/
def ClearAndSet (c : AggregatedClusterMetadataStorage) (metas : List AggregatedClusterMetadata) :
    AggregatedClusterMetadataStorage :=
  { c with snapshot := metas }

/-- Modelled from the spec: `SaveStorage` durably persists the snapshot, all or nothing;
`saveErr` is the outcome of the write.  On failure the in-memory snapshot keeps the
new data and the persisted snapshot is untouched. -/
def SaveStorage (c : AggregatedClusterMetadataStorage) (saveErr : Option String) :
    Option String × AggregatedClusterMetadataStorage :=
  match saveErr with
  | none => (none, { c with persisted := c.snapshot })
  | some e => (some e, c)

/-- Modelled from the spec: `SetAggrMetadata` stores one record under its cluster name
in the snapshot and persists the snapshot. -/
def SetAggrMetadata (c : AggregatedClusterMetadataStorage) (aggr : AggregatedClusterMetadata)
    (saveErr : Option String) : Option String × AggregatedClusterMetadataStorage :=
  SaveStorage { c with snapshot := upsert aggr c.snapshot } saveErr

end AggregatedClusterMetadataStorage

/-! ### The service methods -/

/-- The receiver `s` of the service methods together with the outcomes, in the pass
under study, of the calls it makes outside the available sources. -/
structure ClusterMetadataService where
  /-- Value of `s.cfg.Extensions.Fox.Enable`. -/
  foxEnable : Bool
  /-- Value of `s.cfg.Extensions.Fox.Address`. -/
  foxAddress : String
  /-- Outcome of `NewFoxResolver(address)`. -/
  NewFoxResolver : String → Except String ClusterMetadataResolver
  /-- Outcome of `NewKubeconfigResolvers()`. -/
  NewKubeconfigResolvers : Except String (List ClusterMetadataResolver)
  /-- Value of `s.credStoreService.ListCredResolvers()`. -/
  ListCredResolvers : List CredResolverConfig
  /-- The lookup `s.credStoreService.GetCredResolver`. -/
  GetCredResolver : String → GetCredResolverResult
  /-- Outcome of `NewAwsResolver(cr, cr.AccountId, s.credService)`. -/
  NewAwsResolver : CredResolverConfig → String → Except String ClusterMetadataResolver
  /-- Outcome of `NewAzureResolver(cr, cr.AccountId, s.credService)`. -/
  NewAzureResolver : CredResolverConfig → String → Except String ClusterMetadataResolver
  /-- Outcome of `NewTencentResolver(cr, cr.AccountId, s.credService)`. -/
  NewTencentResolver : CredResolverConfig → String → Except String ClusterMetadataResolver
  /-- The constant `types.INFRAVENDOR_AWS`. -/
  INFRAVENDOR_AWS : String
  /-- The constant `types.INFRAVENDOR_Azure`. -/
  INFRAVENDOR_Azure : String
  /-- The constant `types.INFRAVENDOR_Tencent`. -/
  INFRAVENDOR_Tencent : String
  /-- The library function `strings.EqualFold`. -/
  EqualFold : String → String → Bool
  /-- Outcome of the durable write made by `s.cache.SaveStorage()`. -/
  saveErr : Option String

/-- The loop at lines 177-197 of `ListMetadataResolvers`; the first resolver that
cannot be built ends the function with its error. -/
def credResolverLoop (s : ClusterMetadataService) :
    List CredResolverConfig → List ClusterMetadataResolver →
      Except String (List ClusterMetadataResolver)
  | [], metaResolvers => .ok metaResolvers
  | cr :: rest, metaResolvers =>
    if s.EqualFold cr.InfraVendor s.INFRAVENDOR_AWS then
      match s.NewAwsResolver cr cr.AccountId with
      | .error err => .error err
      | .ok awsResolver => credResolverLoop s rest (metaResolvers ++ [awsResolver])
    else if s.EqualFold cr.InfraVendor s.INFRAVENDOR_Azure then
      match s.NewAzureResolver cr cr.AccountId with
      | .error err => .error err
      | .ok authorizer => credResolverLoop s rest (metaResolvers ++ [authorizer])
    else if s.EqualFold cr.InfraVendor s.INFRAVENDOR_Tencent then
      match s.NewTencentResolver cr cr.AccountId with
      | .error err => .error err
      | .ok tcResolver => credResolverLoop s rest (metaResolvers ++ [tcResolver])
    else credResolverLoop s rest metaResolvers

/-- Embedding of `ListMetadataResolvers` (service.go 158-199). -/
def ListMetadataResolvers (s : ClusterMetadataService) :
    Except String (List ClusterMetadataResolver) :=
  let metaResolvers : List ClusterMetadataResolver := []
  let afterFox : Except String (List ClusterMetadataResolver) :=
    if s.foxEnable then
      match s.NewFoxResolver s.foxAddress with
      | .error err => .error err
      | .ok fox => .ok (metaResolvers ++ [fox])
    else .ok metaResolvers
  match afterFox with
  | .error err => .error err
  | .ok metaResolvers =>
    match s.NewKubeconfigResolvers with
    | .error err => .error err
    | .ok kubeconfigs =>
      credResolverLoop s s.ListCredResolvers (metaResolvers ++ kubeconfigs)

/-- Lines 57-114 of `SyncAvailableClusters`, run on the resolvers that
`ListMetadataResolvers` returned.  The result is `none` when the pass fails at run
time, and otherwise the returned error together with the store after the call. -/
def syncWith (s : ClusterMetadataService) (resolvers : List ClusterMetadataResolver)
    (cache : AggregatedClusterMetadataStorage) :
    Option (Option String × AggregatedClusterMetadataStorage) :=
  match syncMetas s.GetCredResolver resolvers with
  | none => none
  | some metas =>
    let cache := cache.ClearAndSet metas
    match cache.SaveStorage s.saveErr with
    | (some err, cache) => some (some err, cache)
    | (none, cache) => some (none, cache)

/-- Embedding of `SyncAvailableClusters` (service.go 48-115). -/
def SyncAvailableClusters (s : ClusterMetadataService)
    (cache : AggregatedClusterMetadataStorage) :
    Option (Option String × AggregatedClusterMetadataStorage) :=
  match ListMetadataResolvers s with
  | .error err => some (some err, cache)
  | .ok resolvers => syncWith s resolvers cache

/-- Embedding of `SetClusterRegisteredStatus` (service.go 38-46); `saveErr` is the
outcome of the durable write made by `SetAggrMetadata`. -/
def SetClusterRegisteredStatus (cache : AggregatedClusterMetadataStorage)
    (clusterName : String) (saveErr : Option String) :
    Option String × AggregatedClusterMetadataStorage :=
  match cache.GetAggrMetadata clusterName with
  | none => (none, cache)
  | some aggr =>
    cache.SetAggrMetadata { aggr with Status := ClusterInformationStatus.REGISTERED_OK } saveErr

/-- Embedding of `ListClusterMetadatas` (service.go 30-32). -/
def ListClusterMetadatas (cache : AggregatedClusterMetadataStorage) :
    List AggregatedClusterMetadata :=
  cache.ListAggrMetadata

/-- Embedding of `GetClusterMetadata` (service.go 34-36). -/
def GetClusterMetadata (cache : AggregatedClusterMetadataStorage) (clusterName : String) :
    Option AggregatedClusterMetadata :=
  cache.GetAggrMetadata clusterName

/-! ### The two axes of a status -/

/-- Provenance axis of the spec's data model. -/
inductive Provenance where
  | REGISTERED
  | SUGGESTION
  deriving DecidableEq, Repr

/-- Credential-health axis of the spec's data model. -/
inductive CredHealth where
  | OK
  | NO_CRED_RESOLVER
  | CRED_RESOLVER_NOTOK
  deriving DecidableEq, Repr

/-- Provenance axis of a status value, read off its name. -/
def provenance : ClusterInformationStatus → Provenance
  | .REGISTERED_OK => .REGISTERED
  | .REGISTERED_NOTOK_NO_CRED_RESOLVER => .REGISTERED
  | .REGISTERED_NOTOK_CRED_RES_NOTOK => .REGISTERED
  | .SUGGESTION_OK => .SUGGESTION
  | .SUGGESTION_NOTOK_NO_CRED_RESOLVER => .SUGGESTION
  | .SUGGESTION_NOTOK_CRED_RES_NOTOK => .SUGGESTION

/-- Credential-health axis of a status value, read off its name. -/
def credHealth : ClusterInformationStatus → CredHealth
  | .REGISTERED_OK => .OK
  | .REGISTERED_NOTOK_NO_CRED_RESOLVER => .NO_CRED_RESOLVER
  | .REGISTERED_NOTOK_CRED_RES_NOTOK => .CRED_RESOLVER_NOTOK
  | .SUGGESTION_OK => .OK
  | .SUGGESTION_NOTOK_NO_CRED_RESOLVER => .NO_CRED_RESOLVER
  | .SUGGESTION_NOTOK_CRED_RES_NOTOK => .CRED_RESOLVER_NOTOK

/-- The string by which `getClusterInfoStatus` reports a credential health. -/
def CredHealth.code : CredHealth → String
  | .OK => "ok"
  | .NO_CRED_RESOLVER => "not_exists"
  | .CRED_RESOLVER_NOTOK => "not_ok"

/-- Tag mapping of a record, a `nil` mapping read as the empty one. -/
def ClusterMetadata.tags (m : ClusterMetadata) : GoMap String :=
  match m.ClusterTags with
  | some t => t
  | none => GoMap.empty

/-! ### Example data -/

/-- A credential store for the examples: "cred1" is registered and healthy, "cred2" is
registered with another status, the lookup of "bad" fails, every other id is absent. -/
def exampleCredStore (credResolverId : String) : GetCredResolverResult :=
  if credResolverId = "cred1" then
    ⟨some ⟨"acc1", "AWS", CredentialResolverStatus.CRED_REGISTERED_OK⟩, true, none⟩
  else if credResolverId = "cred2" then
    ⟨some ⟨"acc2", "AWS", CredentialResolverStatus.OTHER 0⟩, true, none⟩
  else if credResolverId = "bad" then ⟨none, false, some "lookup failed"⟩
  else ⟨none, false, none⟩

/-- A store for the examples: clusterA is a suggestion without credential resolver,
clusterB a suggestion whose credential resolver is not ok. -/
def exampleCache : AggregatedClusterMetadataStorage :=
  { snapshot :=
      [⟨⟨"clusterA", "", none⟩, ["Vendor1"],
          ClusterInformationStatus.SUGGESTION_NOTOK_NO_CRED_RESOLVER⟩,
       ⟨⟨"clusterB", "cred2", none⟩, ["Vendor1"],
          ClusterInformationStatus.SUGGESTION_NOTOK_CRED_RES_NOTOK⟩],
    persisted := [] }

/-! ### Contributed records and the loop invariant -/

/-- Whether `ListClusters` of the resolver succeeded in this pass. -/
def ClusterMetadataResolver.listed (r : ClusterMetadataResolver) : Bool :=
  match r.ListClusters with
  | .ok _ => true
  | .error _ => false

/-- The records one resolver contributes, each paired with the resolver, in the order
listed; nothing when listing failed. -/
def contributionsOf (r : ClusterMetadataResolver) :
    List (ClusterMetadataResolver × ClusterMetadata) :=
  match r.ListClusters with
  | .error _ => []
  | .ok metadatas => metadatas.map (fun m => (r, m))

/-- All contributed records of a pass in source order. -/
def contributions :
    List ClusterMetadataResolver → List (ClusterMetadataResolver × ClusterMetadata)
  | [] => []
  | r :: rs => contributionsOf r ++ contributions rs

/-- Descriptions of the sources that contributed a record named `clusterName`, in
source order, one entry per contributed record. -/
def sourceDescriptions (resolvers : List ClusterMetadataResolver) (clusterName : String) :
    List String :=
  ((contributions resolvers).filter (fun c => decide (c.2.ClusterName = clusterName))).map
    (fun c => c.1.GetResolverDescription)

/-- The credential lookup never reports a found id without handing out its config. -/
def ConfigWhenFound (GetCredResolver : String → GetCredResolverResult) : Prop :=
  ∀ credResolverId, (GetCredResolver credResolverId).err = none →
    (GetCredResolver credResolverId).found = true →
    (GetCredResolver credResolverId).credResolver ≠ none

/-- What the two maps hold after the records `cs` have been folded in. -/
structure AccInv (acc : SyncAcc) (cs : List (ClusterMetadataResolver × ClusterMetadata)) :
    Prop where
  avail_none : ∀ name, acc.availMetaMap.get name = none ↔
    ∀ c ∈ cs, c.2.ClusterName ≠ name
  avail_some : ∀ name aggr, acc.availMetaMap.get name = some aggr →
    aggr.Metadata.ClusterName = name ∧
    aggr.DataResolvers =
      (cs.filter (fun c => decide (c.2.ClusterName = name))).map
        (fun c => c.1.GetResolverDescription)
  reged : ∀ name, (acc.regedMetaMap.get name).isSome = true ↔
    ∃ c ∈ cs, c.1.isKubeconfigResolver = true ∧ c.2.ClusterName = name

/-! ### Example sources and service -/

/-- The local kubeconfig source, listing clusterA without credential resolver and with
an empty tag mapping. -/
def resolverLocal : ClusterMetadataResolver :=
  ⟨"Local", true, .ok [⟨"clusterA", "", some GoMap.empty⟩]⟩

/-- A vendor source listing clusterA with credential resolver cred1 and tag env:prod. -/
def resolverVendor1 : ClusterMetadataResolver :=
  ⟨"Vendor1", false, .ok [⟨"clusterA", "cred1", some ⟨[("env", "prod")], by decide⟩⟩]⟩

/-- A vendor source listing clusterB with credential resolver cred2. -/
def resolverVendor1B : ClusterMetadataResolver :=
  ⟨"Vendor1", false, .ok [⟨"clusterB", "cred2", none⟩]⟩

/-- A vendor source whose `ListClusters` call fails. -/
def resolverVendor1Failing : ClusterMetadataResolver :=
  ⟨"Vendor1", false, .error "timeout"⟩

/-- A service with the inventory source disabled, one kubeconfig source and one stored
AWS credential configuration; `awsOutcome` is the outcome of building the AWS source.
`EqualFold` is given on the vendor strings used here, where it is plain equality. -/
def exampleService (awsOutcome : Except String ClusterMetadataResolver) :
    ClusterMetadataService :=
  { foxEnable := false
    foxAddress := ""
    NewFoxResolver := fun _ => .error "disabled"
    NewKubeconfigResolvers := .ok [resolverLocal]
    ListCredResolvers := [⟨"acc1", "AWS", CredentialResolverStatus.CRED_REGISTERED_OK⟩]
    GetCredResolver := exampleCredStore
    NewAwsResolver := fun _ _ => awsOutcome
    NewAzureResolver := fun _ _ => .error "unused"
    NewTencentResolver := fun _ _ => .error "unused"
    INFRAVENDOR_AWS := "AWS"
    INFRAVENDOR_Azure := "Azure"
    INFRAVENDOR_Tencent := "Tencent"
    EqualFold := fun a b => decide (a = b)
    saveErr := none }

/-! ## Lemmas and theorems -/

/-! ### Go maps -/

theorem getEntry_setEntry {β : Type} (k k' : String) (v : β) (es : List (String × β)) :
    getEntry k (setEntry k' v es) = if k' = k then some v else getEntry k es := by
  induction es with
  | nil => simp [setEntry, getEntry]
  | cons e es ih =>
    by_cases h : e.1 = k'
    · by_cases h2 : k' = k
      · simp [setEntry, getEntry, h, h2]
      · have h3 : ¬ e.1 = k := fun h4 => h2 (h ▸ h4)
        simp [setEntry, getEntry, h, h2, h3]
    · by_cases h2 : e.1 = k
      · have h3 : ¬ k' = k := fun h4 => h (h2.trans h4.symm)
        have h5 : ¬ k = k' := fun h4 => h3 h4.symm
        simp [setEntry, getEntry, h2, h3, h5]
      · simp [setEntry, getEntry, h, h2, ih]

theorem getEntry_eq_none_iff {β : Type} (k : String) (es : List (String × β)) :
    getEntry k es = none ↔ k ∉ es.map Prod.fst := by
  induction es with
  | nil => simp [getEntry]
  | cons e es ih =>
    by_cases h : e.1 = k
    · simp [getEntry, h]
    · have h' : ¬ k = e.1 := fun h2 => h h2.symm
      simp [getEntry, h, h', ih]

theorem GoMap.get_set {β : Type} (m : GoMap β) (k k' : String) (v : β) :
    (m.set k' v).get k = if k' = k then some v else m.get k :=
  getEntry_setEntry k k' v m.entries

theorem get_foldl_set (k : String) (l : List (String × String))
    (hl : (l.map Prod.fst).Nodup) (tags : GoMap String) :
    (l.foldl (fun m kv => m.set kv.1 kv.2) tags).get k =
      match getEntry k l with
      | some v => some v
      | none => tags.get k := by
  induction l generalizing tags with
  | nil => simp [getEntry]
  | cons e l ih =>
    rw [List.map_cons, List.nodup_cons] at hl
    rw [List.foldl_cons, ih hl.2, GoMap.get_set]
    by_cases h : e.1 = k
    · have hn : getEntry k l = none := by
        rw [getEntry_eq_none_iff]
        exact h ▸ hl.1
      simp [getEntry, h, hn]
    · simp [getEntry, h]

theorem get_writeTags (tags b : GoMap String) (k : String) :
    (writeTags tags b).get k =
      match b.get k with
      | some v => some v
      | none => tags.get k :=
  get_foldl_set k b.entries b.nodup tags

theorem getEntry_of_mem {β : Type} (k : String) (v : β) (es : List (String × β))
    (hn : (es.map Prod.fst).Nodup) (hm : (k, v) ∈ es) : getEntry k es = some v := by
  induction es with
  | nil => cases hm
  | cons e es ih =>
    rw [List.map_cons, List.nodup_cons] at hn
    rcases List.mem_cons.1 hm with h | h
    · subst h
      simp [getEntry]
    · have hk : k ∈ es.map Prod.fst := List.mem_map.2 ⟨(k, v), h, rfl⟩
      have hne : ¬ e.1 = k := fun h2 => hn.1 (h2 ▸ hk)
      simp [getEntry, hne, ih hn.2 h]

theorem mem_of_getEntry {β : Type} (k : String) (v : β) (es : List (String × β))
    (h : getEntry k es = some v) : (k, v) ∈ es := by
  induction es with
  | nil => simp [getEntry] at h
  | cons e es ih =>
    by_cases hk : e.1 = k
    · simp only [getEntry, hk, if_true, Option.some.injEq] at h
      have he : e = (k, v) := Prod.ext hk h
      rw [he]
      exact List.mem_cons_self _ _
    · simp only [getEntry, hk, if_false] at h
      exact List.mem_cons_of_mem _ (ih h)

theorem getEntry_perm {β : Type} (k : String) (l l' : List (String × β))
    (hp : l.Perm l') (hn : (l'.map Prod.fst).Nodup) : getEntry k l = getEntry k l' := by
  have hn' : (l.map Prod.fst).Nodup := ((hp.map Prod.fst).nodup_iff).2 hn
  cases h : getEntry k l' with
  | none =>
    rw [getEntry_eq_none_iff] at h ⊢
    intro hk
    exact h ((hp.map Prod.fst).mem_iff.1 hk)
  | some v =>
    exact getEntry_of_mem k v l hn' (hp.mem_iff.2 (mem_of_getEntry k v l' h))

/-- The tag loop gives the same lookups in whatever order it visits the entries of
`b`, the iteration order of a Go map being unspecified. -/
theorem get_writeTags_any_order (tags b : GoMap String) (l : List (String × String))
    (hp : l.Perm b.entries) (k : String) :
    (l.foldl (fun m kv => m.set kv.1 kv.2) tags).get k = (writeTags tags b).get k := by
  have hn : (l.map Prod.fst).Nodup := ((hp.map Prod.fst).nodup_iff).2 b.nodup
  rw [get_writeTags, get_foldl_set k l hn tags]
  unfold GoMap.get
  rw [getEntry_perm k l b.entries hp b.nodup]

theorem tags_mergeMetadata (a b : ClusterMetadata) :
    (mergeMetadata a b).tags = match b.ClusterTags with
      | some t => writeTags a.tags t
      | none => a.tags := by
  cases ha : a.ClusterTags <;> cases hb : b.ClusterTags <;>
    simp [mergeMetadata, ClusterMetadata.tags, ha, hb]

/-! ### C4, C5: field-level merge rules -/

/-- C4: the merged credResolverId is the incoming one when that is non-empty and the
accumulated one otherwise, and the merged cluster name is the accumulated one. -/
theorem mergeMetadata_credResolverId (a b : ClusterMetadata) :
    (b.CredResolverId ≠ "" → (mergeMetadata a b).CredResolverId = b.CredResolverId) ∧
    (b.CredResolverId = "" → (mergeMetadata a b).CredResolverId = a.CredResolverId) ∧
    (mergeMetadata a b).ClusterName = a.ClusterName := by
  refine ⟨?_, ?_, rfl⟩
  · intro hb
    simp [mergeMetadata, hb]
  · intro hb
    by_cases ha : a.CredResolverId = ""
    · simp [mergeMetadata, hb, ha]
    · simp [mergeMetadata, hb, ha]

/-- Witness for C4: merging a record with id "x" and then one with the empty id keeps
"x", and the cluster name stays the accumulated one. -/
theorem mergeMetadata_credResolverId_witness :
    (mergeMetadata ⟨"c", "x", none⟩ ⟨"c", "", none⟩).CredResolverId = "x" ∧
    (mergeMetadata ⟨"c", "x", none⟩ ⟨"c", "y", none⟩).CredResolverId = "y" ∧
    (mergeMetadata ⟨"c", "x", none⟩ ⟨"d", "", none⟩).ClusterName = "c" :=
  ⟨(mergeMetadata_credResolverId ⟨"c", "x", none⟩ ⟨"c", "", none⟩).2.1 rfl,
   (mergeMetadata_credResolverId ⟨"c", "x", none⟩ ⟨"c", "y", none⟩).1 (by decide),
   (mergeMetadata_credResolverId ⟨"c", "x", none⟩ ⟨"d", "", none⟩).2.2⟩

/-- C5: tag merge is a right-biased union by key: a key of the later record takes the
later value, a key only in the earlier record keeps its value, a key in neither has
no entry; a nil tag mapping counts as empty. -/
theorem mergeMetadata_tags (a b : ClusterMetadata) (k : String) :
    (∀ v, b.tags.get k = some v → (mergeMetadata a b).tags.get k = some v) ∧
    (∀ v, b.tags.get k = none → a.tags.get k = some v →
      (mergeMetadata a b).tags.get k = some v) ∧
    (b.tags.get k = none → a.tags.get k = none →
      (mergeMetadata a b).tags.get k = none) := by
  have key : (mergeMetadata a b).tags.get k =
      match b.tags.get k with
      | some v => some v
      | none => a.tags.get k := by
    rw [tags_mergeMetadata]
    cases hb : b.ClusterTags with
    | none => simp [ClusterMetadata.tags, hb, GoMap.get, GoMap.empty, getEntry]
    | some t => simp [ClusterMetadata.tags, hb, get_writeTags]
  refine ⟨?_, ?_, ?_⟩
  · intro v hv
    rw [key, hv]
  · intro v hb ha
    rw [key, hb, ha]
  · intro hb ha
    rw [key, hb, ha]

/-- Witness for C5: merging tags a:1, b:2 with tags b:3, c:4 gives a:1, b:3, c:4. -/
theorem mergeMetadata_tags_witness :
    (mergeMetadata ⟨"c", "", some ⟨[("a", "1"), ("b", "2")], by decide⟩⟩
        ⟨"c", "", some ⟨[("b", "3"), ("c", "4")], by decide⟩⟩).tags.get "b" = some "3" ∧
    (mergeMetadata ⟨"c", "", some ⟨[("a", "1"), ("b", "2")], by decide⟩⟩
        ⟨"c", "", some ⟨[("b", "3"), ("c", "4")], by decide⟩⟩).tags.get "a" = some "1" ∧
    (mergeMetadata ⟨"c", "", some ⟨[("a", "1"), ("b", "2")], by decide⟩⟩
        ⟨"c", "", some ⟨[("b", "3"), ("c", "4")], by decide⟩⟩).tags.get "z" = none ∧
    (mergeMetadata ⟨"c", "", some ⟨[("a", "1"), ("b", "2")], by decide⟩⟩
        ⟨"c", "", some ⟨[("b", "3"), ("c", "4")], by decide⟩⟩).tags.entries =
      [("a", "1"), ("b", "3"), ("c", "4")] :=
  ⟨(mergeMetadata_tags _ _ "b").1 "3" (by decide),
   (mergeMetadata_tags _ _ "a").2.1 "1" (by decide) (by decide),
   (mergeMetadata_tags _ _ "z").2.2 (by decide) (by decide),
   by decide⟩

/-! ### C1: credential-health classification -/

/-- C1: `getClusterInfoStatus` gives "not_exists" for the empty id whatever the lookup
is, "not_ok" for a lookup error, "not_exists" for an id that is not found, "ok" for a
found id with status CRED_REGISTERED_OK and "not_ok" for a found id with any other
status; a lookup error never gives "ok". -/
theorem getClusterInfoStatus_classification
    (GetCredResolver : String → GetCredResolverResult) (credResolverId : String) :
    (credResolverId = "" →
      getClusterInfoStatus GetCredResolver credResolverId = some "not_exists") ∧
    (credResolverId ≠ "" → (GetCredResolver credResolverId).err ≠ none →
      getClusterInfoStatus GetCredResolver credResolverId = some "not_ok") ∧
    (credResolverId ≠ "" → (GetCredResolver credResolverId).err = none →
      (GetCredResolver credResolverId).found = false →
      getClusterInfoStatus GetCredResolver credResolverId = some "not_exists") ∧
    (∀ c, credResolverId ≠ "" → (GetCredResolver credResolverId).err = none →
      (GetCredResolver credResolverId).found = true →
      (GetCredResolver credResolverId).credResolver = some c →
      c.Status = CredentialResolverStatus.CRED_REGISTERED_OK →
      getClusterInfoStatus GetCredResolver credResolverId = some "ok") ∧
    (∀ c, credResolverId ≠ "" → (GetCredResolver credResolverId).err = none →
      (GetCredResolver credResolverId).found = true →
      (GetCredResolver credResolverId).credResolver = some c →
      c.Status ≠ CredentialResolverStatus.CRED_REGISTERED_OK →
      getClusterInfoStatus GetCredResolver credResolverId = some "not_ok") ∧
    ((GetCredResolver credResolverId).err ≠ none →
      getClusterInfoStatus GetCredResolver credResolverId ≠ some "ok") := by
  refine ⟨?_, ?_, ?_, ?_, ?_, ?_⟩
  · intro h
    simp [getClusterInfoStatus, h]
  · intro h he
    simp [getClusterInfoStatus, h, he]
  · intro h he hf
    simp [getClusterInfoStatus, h, he, hf]
  · intro c h he hf hc hs
    simp [getClusterInfoStatus, h, he, hf, hc, hs]
  · intro c h he hf hc hs
    simp [getClusterInfoStatus, h, he, hf, hc, hs]
  · intro he
    by_cases h : credResolverId = ""
    · simp [getClusterInfoStatus, h]
    · simp [getClusterInfoStatus, h, he]

/-- Witness for C1: the five outcomes on the example credential store. -/
theorem getClusterInfoStatus_classification_witness :
    getClusterInfoStatus exampleCredStore "" = some "not_exists" ∧
    getClusterInfoStatus exampleCredStore "bad" = some "not_ok" ∧
    getClusterInfoStatus exampleCredStore "nobody" = some "not_exists" ∧
    getClusterInfoStatus exampleCredStore "cred1" = some "ok" ∧
    getClusterInfoStatus exampleCredStore "cred2" = some "not_ok" ∧
    getClusterInfoStatus exampleCredStore "bad" ≠ some "ok" :=
  ⟨(getClusterInfoStatus_classification exampleCredStore "").1 rfl,
   (getClusterInfoStatus_classification exampleCredStore "bad").2.1 (by decide) (by decide),
   (getClusterInfoStatus_classification exampleCredStore "nobody").2.2.1
     (by decide) (by decide) (by decide),
   (getClusterInfoStatus_classification exampleCredStore "cred1").2.2.2.1
     ⟨"acc1", "AWS", CredentialResolverStatus.CRED_REGISTERED_OK⟩
     (by decide) (by decide) (by decide) (by decide) (by decide),
   (getClusterInfoStatus_classification exampleCredStore "cred2").2.2.2.2.1
     ⟨"acc2", "AWS", CredentialResolverStatus.OTHER 0⟩
     (by decide) (by decide) (by decide) (by decide) (by decide),
   (getClusterInfoStatus_classification exampleCredStore "bad").2.2.2.2.2 (by decide)⟩

/-! ### C3, C8: SetClusterRegisteredStatus -/

theorem find_upsert (aggr : AggregatedClusterMetadata) (l : List AggregatedClusterMetadata) :
    (AggregatedClusterMetadataStorage.upsert aggr l).find?
      (fun m => decide (m.Metadata.ClusterName = aggr.Metadata.ClusterName)) = some aggr := by
  induction l with
  | nil => simp [AggregatedClusterMetadataStorage.upsert]
  | cons m ms ih =>
    by_cases h : m.Metadata.ClusterName = aggr.Metadata.ClusterName
    · simp [AggregatedClusterMetadataStorage.upsert, h]
    · simp [AggregatedClusterMetadataStorage.upsert, h, List.find?_cons, ih]

theorem snapshot_SaveStorage (c : AggregatedClusterMetadataStorage) (saveErr : Option String) :
    (c.SaveStorage saveErr).2.snapshot = c.snapshot ∧ (c.SaveStorage saveErr).1 = saveErr := by
  cases saveErr <;> simp [AggregatedClusterMetadataStorage.SaveStorage]

/-- Counterexample to C3 as stated: clusterA is stored with status
SUGGESTION_NOTOK_NO_CRED_RESOLVER; after `SetClusterRegisteredStatus` its stored status
is REGISTERED_OK, not REGISTERED_NOTOK_NO_CRED_RESOLVER, so the credential-health axis
changed from NO_CRED_RESOLVER to OK. -/
theorem SetClusterRegisteredStatus_changes_credHealth :
    (exampleCache.GetAggrMetadata "clusterA").map (fun m => m.Status) =
      some ClusterInformationStatus.SUGGESTION_NOTOK_NO_CRED_RESOLVER ∧
    ((SetClusterRegisteredStatus exampleCache "clusterA" none).2.GetAggrMetadata
        "clusterA").map (fun m => m.Status) = some ClusterInformationStatus.REGISTERED_OK ∧
    ((SetClusterRegisteredStatus exampleCache "clusterA" none).2.GetAggrMetadata
        "clusterA").map (fun m => credHealth m.Status) ≠
      (exampleCache.GetAggrMetadata "clusterA").map (fun m => credHealth m.Status) := by
  decide

/-- C3 (amended): for a cluster present in the store, `SetClusterRegisteredStatus`
writes the found record with its status replaced by REGISTERED_OK, so the stored record
has status REGISTERED_OK and is otherwise unchanged, whatever its status was before:
the provenance becomes REGISTERED and the credential-health axis becomes OK. The call
returns the outcome of the store write. -/
theorem SetClusterRegisteredStatus_present (cache : AggregatedClusterMetadataStorage)
    (clusterName : String) (saveErr : Option String) (aggr : AggregatedClusterMetadata)
    (h : cache.GetAggrMetadata clusterName = some aggr) :
    SetClusterRegisteredStatus cache clusterName saveErr =
      cache.SetAggrMetadata { aggr with Status := ClusterInformationStatus.REGISTERED_OK }
        saveErr ∧
    (SetClusterRegisteredStatus cache clusterName saveErr).2.GetAggrMetadata clusterName =
      some { aggr with Status := ClusterInformationStatus.REGISTERED_OK } ∧
    provenance ({ aggr with Status := ClusterInformationStatus.REGISTERED_OK } :
      AggregatedClusterMetadata).Status = Provenance.REGISTERED ∧
    credHealth ({ aggr with Status := ClusterInformationStatus.REGISTERED_OK } :
      AggregatedClusterMetadata).Status = CredHealth.OK ∧
    (SetClusterRegisteredStatus cache clusterName saveErr).1 = saveErr := by
  have hname : aggr.Metadata.ClusterName = clusterName := by
    have := List.find?_some h
    simpa using this
  have hs : SetClusterRegisteredStatus cache clusterName saveErr =
      cache.SetAggrMetadata { aggr with Status := ClusterInformationStatus.REGISTERED_OK }
        saveErr := by
    simp only [SetClusterRegisteredStatus, h]
  rw [hs]
  refine ⟨rfl, ?_, rfl, rfl, ?_⟩
  · unfold AggregatedClusterMetadataStorage.SetAggrMetadata
      AggregatedClusterMetadataStorage.GetAggrMetadata
    rw [(snapshot_SaveStorage _ saveErr).1]
    have := find_upsert { aggr with Status := ClusterInformationStatus.REGISTERED_OK }
      cache.snapshot
    simp only [hname] at this
    exact this
  · exact (snapshot_SaveStorage _ saveErr).2

/-- Witness for C3 (amended): clusterB, stored as SUGGESTION_NOTOK_CRED_RES_NOTOK,
is stored as REGISTERED_OK after the call. -/
theorem SetClusterRegisteredStatus_present_witness :
    (SetClusterRegisteredStatus exampleCache "clusterB" none).2.GetAggrMetadata "clusterB" =
      some ⟨⟨"clusterB", "cred2", none⟩, ["Vendor1"], ClusterInformationStatus.REGISTERED_OK⟩ :=
  (SetClusterRegisteredStatus_present exampleCache "clusterB" none
    ⟨⟨"clusterB", "cred2", none⟩, ["Vendor1"],
      ClusterInformationStatus.SUGGESTION_NOTOK_CRED_RES_NOTOK⟩ (by decide)).2.1

/-- C8: when the store does not find the cluster, `SetClusterRegisteredStatus` returns
no error and leaves the store as it was: no write, the same list, and still no entry
for the cluster. -/
theorem SetClusterRegisteredStatus_absent (cache : AggregatedClusterMetadataStorage)
    (clusterName : String) (saveErr : Option String)
    (h : GetClusterMetadata cache clusterName = none) :
    (SetClusterRegisteredStatus cache clusterName saveErr).1 = none ∧
    (SetClusterRegisteredStatus cache clusterName saveErr).2 = cache ∧
    ListClusterMetadatas (SetClusterRegisteredStatus cache clusterName saveErr).2 =
      ListClusterMetadatas cache ∧
    GetClusterMetadata (SetClusterRegisteredStatus cache clusterName saveErr).2 clusterName =
      none := by
  have h' : cache.GetAggrMetadata clusterName = none := h
  have hs : SetClusterRegisteredStatus cache clusterName saveErr = (none, cache) := by
    simp [SetClusterRegisteredStatus, h']
  rw [hs]
  exact ⟨rfl, rfl, rfl, h⟩

/-- Witness for C8: clusterZ is not in the example store; the call changes nothing,
also when the durable write would have failed. -/
theorem SetClusterRegisteredStatus_absent_witness :
    (SetClusterRegisteredStatus exampleCache "clusterZ" (some "disk full")).1 = none ∧
    (SetClusterRegisteredStatus exampleCache "clusterZ" (some "disk full")).2 = exampleCache ∧
    (ListClusterMetadatas
      (SetClusterRegisteredStatus exampleCache "clusterZ" (some "disk full")).2).length = 2 :=
  have h := SetClusterRegisteredStatus_absent exampleCache "clusterZ" (some "disk full")
    (by decide)
  ⟨h.1, h.2.1, by rw [h.2.2.1]; decide⟩

/-! ### C9: the aggregation loop is a left fold -/

/-- C9: running the aggregation loop over `xs ++ ys` gives the accumulator obtained by
running it over `ys` from the accumulator of `xs`; in particular the loop over
`[A, B, C]` equals the loop over `[A, B]` continued with the records of `C`. -/
theorem aggregateFrom_append (acc : SyncAcc) (xs ys : List ClusterMetadataResolver)
    (A B C : ClusterMetadataResolver) :
    aggregateFrom acc (xs ++ ys) = aggregateFrom (aggregateFrom acc xs) ys ∧
    aggregateClusters (xs ++ ys) = aggregateFrom (aggregateClusters xs) ys ∧
    aggregateClusters [A, B, C] = foldResolver (aggregateClusters [A, B]) C := by
  refine ⟨?_, ?_, ?_⟩
  · simp [aggregateFrom, List.foldl_append]
  · simp [aggregateClusters, aggregateFrom, List.foldl_append]
  · simp [aggregateClusters, aggregateFrom]

/-! ### The aggregation loop as a fold over contributed records -/

theorem mem_contributionsOf (r : ClusterMetadataResolver)
    (c : ClusterMetadataResolver × ClusterMetadata) :
    c ∈ contributionsOf r ↔ c.1 = r ∧ ∃ ms, r.ListClusters = .ok ms ∧ c.2 ∈ ms := by
  unfold contributionsOf
  cases hr : r.ListClusters with
  | error e => simp
  | ok ms =>
    simp only [List.mem_map, Except.ok.injEq, exists_eq_left']
    constructor
    · rintro ⟨m, hm, rfl⟩
      exact ⟨rfl, hm⟩
    · rintro ⟨h1, h2⟩
      exact ⟨c.2, h2, by rw [← h1]⟩

theorem mem_contributions (rs : List ClusterMetadataResolver)
    (c : ClusterMetadataResolver × ClusterMetadata) :
    c ∈ contributions rs ↔ c.1 ∈ rs ∧ ∃ ms, c.1.ListClusters = .ok ms ∧ c.2 ∈ ms := by
  induction rs with
  | nil => simp [contributions]
  | cons r rs ih =>
    simp only [contributions, List.mem_append, mem_contributionsOf, ih, List.mem_cons]
    constructor
    · rintro (⟨h1, h2⟩ | ⟨h1, h2⟩)
      · exact ⟨Or.inl h1, by rw [h1]; exact h2⟩
      · exact ⟨Or.inr h1, h2⟩
    · rintro ⟨h1 | h1, h2⟩
      · exact Or.inl ⟨h1, by rw [← h1]; exact h2⟩
      · exact Or.inr ⟨h1, h2⟩

theorem foldResolver_eq_foldl (acc : SyncAcc) (r : ClusterMetadataResolver) :
    foldResolver acc r = (contributionsOf r).foldl (fun a c => foldMetadata c.1 a c.2) acc := by
  unfold foldResolver contributionsOf
  cases r.ListClusters with
  | error e => rfl
  | ok ms => simp [List.foldl_map]

theorem aggregateFrom_eq_foldl (acc : SyncAcc) (rs : List ClusterMetadataResolver) :
    aggregateFrom acc rs =
      (contributions rs).foldl (fun a c => foldMetadata c.1 a c.2) acc := by
  induction rs generalizing acc with
  | nil => rfl
  | cons r rs ih =>
    have h : aggregateFrom acc (r :: rs) = aggregateFrom (foldResolver acc r) rs := rfl
    rw [h, ih, contributions, List.foldl_append, foldResolver_eq_foldl]

theorem AccInv.init : AccInv SyncAcc.init [] := by
  refine ⟨?_, ?_, ?_⟩
  · intro name
    simp [SyncAcc.init, GoMap.get, GoMap.empty, getEntry]
  · intro name aggr h
    simp [SyncAcc.init, GoMap.get, GoMap.empty, getEntry] at h
  · intro name
    simp [SyncAcc.init, GoMap.get, GoMap.empty, getEntry]

theorem mergeMetadata_clusterName (a b : ClusterMetadata) :
    (mergeMetadata a b).ClusterName = a.ClusterName := rfl

theorem foldMetadata_avail_none (r : ClusterMetadataResolver) (acc : SyncAcc)
    (md : ClusterMetadata) (h : acc.availMetaMap.get md.ClusterName = none) :
    (foldMetadata r acc md).availMetaMap =
      acc.availMetaMap.set md.ClusterName
        ⟨md, [r.GetResolverDescription], ClusterInformationStatus.SUGGESTION_OK⟩ := by
  simp [foldMetadata, h]

theorem foldMetadata_avail_some (r : ClusterMetadataResolver) (acc : SyncAcc)
    (md : ClusterMetadata) (aggr : AggregatedClusterMetadata)
    (h : acc.availMetaMap.get md.ClusterName = some aggr) :
    (foldMetadata r acc md).availMetaMap =
      acc.availMetaMap.set md.ClusterName
        ⟨mergeMetadata aggr.Metadata md, aggr.DataResolvers ++ [r.GetResolverDescription],
          aggr.Status⟩ := by
  simp [foldMetadata, h]

theorem foldMetadata_reged (r : ClusterMetadataResolver) (acc : SyncAcc)
    (md : ClusterMetadata) :
    (foldMetadata r acc md).regedMetaMap =
      if r.isKubeconfigResolver then acc.regedMetaMap.set md.ClusterName true
      else acc.regedMetaMap := by
  simp [foldMetadata]

theorem AccInv.step {acc : SyncAcc} {cs : List (ClusterMetadataResolver × ClusterMetadata)}
    (h : AccInv acc cs) (c : ClusterMetadataResolver × ClusterMetadata) :
    AccInv (foldMetadata c.1 acc c.2) (cs ++ [c]) := by
  refine ⟨?_, ?_, ?_⟩
  · intro name
    have hset : ∃ x, (foldMetadata c.1 acc c.2).availMetaMap =
        acc.availMetaMap.set c.2.ClusterName x := by
      cases hg : acc.availMetaMap.get c.2.ClusterName with
      | none => exact ⟨_, foldMetadata_avail_none c.1 acc c.2 hg⟩
      | some aggr => exact ⟨_, foldMetadata_avail_some c.1 acc c.2 aggr hg⟩
    obtain ⟨x, hx⟩ := hset
    rw [hx, GoMap.get_set]
    by_cases hn : c.2.ClusterName = name
    · simp only [hn, if_true]
      constructor
      · intro h0
        cases h0
      · intro h0
        exact absurd hn (h0 c (by simp))
    · simp only [hn, if_false, h.avail_none name]
      constructor
      · intro h0 c' hc'
        rcases List.mem_append.1 hc' with h1 | h1
        · exact h0 c' h1
        · simp only [List.mem_singleton] at h1
          rw [h1]
          exact hn
      · intro h0 c' hc'
        exact h0 c' (List.mem_append_left _ hc')
  · intro name aggr hget
    cases hg : acc.availMetaMap.get c.2.ClusterName with
    | none =>
      rw [foldMetadata_avail_none c.1 acc c.2 hg, GoMap.get_set] at hget
      by_cases hn : c.2.ClusterName = name
      · simp only [hn, if_true, Option.some.injEq] at hget
        subst hget
        refine ⟨hn, ?_⟩
        have hnone := (h.avail_none c.2.ClusterName).1 hg
        have hf : cs.filter (fun c' => decide (c'.2.ClusterName = name)) = [] := by
          rw [List.filter_eq_nil_iff]
          intro c' hc'
          have := hnone c' hc'
          rw [hn] at this
          simpa using this
        simp [List.filter_append, hf, hn]
      · simp only [hn, if_false] at hget
        obtain ⟨h1, h2⟩ := h.avail_some name aggr hget
        refine ⟨h1, ?_⟩
        rw [h2]
        simp [List.filter_append, hn]
    | some old =>
      rw [foldMetadata_avail_some c.1 acc c.2 old hg, GoMap.get_set] at hget
      obtain ⟨h1, h2⟩ := h.avail_some c.2.ClusterName old hg
      by_cases hn : c.2.ClusterName = name
      · simp only [hn, if_true, Option.some.injEq] at hget
        subst hget
        refine ⟨?_, ?_⟩
        · show (mergeMetadata old.Metadata c.2).ClusterName = name
          rw [mergeMetadata_clusterName old.Metadata c.2, h1, hn]
        · show old.DataResolvers ++ [c.1.GetResolverDescription] = _
          rw [h2]
          simp [List.filter_append, hn]
      · simp only [hn, if_false] at hget
        obtain ⟨h3, h4⟩ := h.avail_some name aggr hget
        refine ⟨h3, ?_⟩
        rw [h4]
        simp [List.filter_append, hn]
  · intro name
    rw [foldMetadata_reged]
    by_cases hk : c.1.isKubeconfigResolver = true
    · simp only [hk, if_true, GoMap.get_set]
      by_cases hn : c.2.ClusterName = name
      · simp only [hn, if_true, Option.isSome_some, true_iff]
        exact ⟨c, by simp, hk, hn⟩
      · simp only [hn, if_false, h.reged name]
        constructor
        · rintro ⟨c', hc', h1, h2⟩
          exact ⟨c', List.mem_append_left _ hc', h1, h2⟩
        · rintro ⟨c', hc', h1, h2⟩
          rcases List.mem_append.1 hc' with h3 | h3
          · exact ⟨c', h3, h1, h2⟩
          · simp only [List.mem_singleton] at h3
            rw [h3] at h2
            exact absurd h2 hn
    · have hk' : c.1.isKubeconfigResolver = false := by simpa using hk
      simp only [hk', Bool.false_eq_true, if_false]
      rw [h.reged name]
      constructor
      · rintro ⟨c', hc', h1, h2⟩
        exact ⟨c', List.mem_append_left _ hc', h1, h2⟩
      · rintro ⟨c', hc', h1, h2⟩
        rcases List.mem_append.1 hc' with h3 | h3
        · exact ⟨c', h3, h1, h2⟩
        · simp only [List.mem_singleton] at h3
          rw [h3] at h1
          exact absurd h1 hk

theorem AccInv.foldl {acc : SyncAcc} {cs : List (ClusterMetadataResolver × ClusterMetadata)}
    (h : AccInv acc cs) (l : List (ClusterMetadataResolver × ClusterMetadata)) :
    AccInv (l.foldl (fun a c => foldMetadata c.1 a c.2) acc) (cs ++ l) := by
  induction l generalizing acc cs with
  | nil => simpa using h
  | cons c l ih =>
    have := ih (h.step c)
    simpa [List.append_assoc] using this

theorem AccInv.aggregateClusters (rs : List ClusterMetadataResolver) :
    AccInv (aggregateClusters rs) (contributions rs) := by
  have := AccInv.init.foldl (contributions rs)
  rw [List.nil_append] at this
  unfold KubeconfigUpdater.aggregateClusters
  rw [aggregateFrom_eq_foldl]
  exact this

/-! ### The status loop -/

theorem getClusterInfoStatus_code (GetCredResolver : String → GetCredResolverResult)
    (credResolverId s : String)
    (h : getClusterInfoStatus GetCredResolver credResolverId = some s) :
    ∃ c : CredHealth, s = c.code := by
  unfold getClusterInfoStatus at h
  split at h
  · exact ⟨CredHealth.NO_CRED_RESOLVER, by simpa [CredHealth.code] using h.symm⟩
  · simp only at h
    split at h
    · exact ⟨CredHealth.CRED_RESOLVER_NOTOK, by simpa [CredHealth.code] using h.symm⟩
    · split at h
      · exact ⟨CredHealth.NO_CRED_RESOLVER, by simpa [CredHealth.code] using h.symm⟩
      · split at h
        · cases h
        · split at h
          · exact ⟨CredHealth.OK, by simpa [CredHealth.code] using h.symm⟩
          · exact ⟨CredHealth.CRED_RESOLVER_NOTOK, by simpa [CredHealth.code] using h.symm⟩

theorem getClusterInfoStatus_total (GetCredResolver : String → GetCredResolverResult)
    (hwf : ConfigWhenFound GetCredResolver) (credResolverId : String) :
    ∃ s, getClusterInfoStatus GetCredResolver credResolverId = some s := by
  unfold getClusterInfoStatus
  split
  · exact ⟨_, rfl⟩
  · simp only
    split
    · exact ⟨_, rfl⟩
    · rename_i herr
      split
      · exact ⟨_, rfl⟩
      · rename_i hfound
        have he : (GetCredResolver credResolverId).err = none := by simpa using herr
        have hf : (GetCredResolver credResolverId).found = true := by simpa using hfound
        have := hwf credResolverId he hf
        split
        · rename_i hnone
          exact absurd hnone this
        · split <;> exact ⟨_, rfl⟩

theorem assignStatus_some (GetCredResolver : String → GetCredResolverResult)
    (regedMetaMap : GoMap Bool) (aggr aggr' : AggregatedClusterMetadata)
    (h : assignStatus GetCredResolver regedMetaMap aggr = some aggr') :
    aggr'.Metadata = aggr.Metadata ∧ aggr'.DataResolvers = aggr.DataResolvers ∧
    (provenance aggr'.Status = Provenance.REGISTERED ↔
      (regedMetaMap.get aggr.Metadata.ClusterName).isSome = true) ∧
    getClusterInfoStatus GetCredResolver aggr.Metadata.CredResolverId =
      some (credHealth aggr'.Status).code := by
  unfold assignStatus at h
  cases hg : getClusterInfoStatus GetCredResolver aggr.Metadata.CredResolverId with
  | none => simp [hg] at h
  | some s =>
    obtain ⟨c, hc⟩ := getClusterInfoStatus_code _ _ _ hg
    subst hc
    simp only [hg] at h
    by_cases hr : (regedMetaMap.get aggr.Metadata.ClusterName).isSome = true
    · cases c <;>
        · simp only [hr, if_true, CredHealth.code] at h
          simp only [String.reduceEq, if_true, if_false, Option.some.injEq] at h
          subst h
          simp [provenance, credHealth, CredHealth.code, hr]
    · have hr' : (regedMetaMap.get aggr.Metadata.ClusterName).isSome = false := by
        simpa using hr
      cases c <;>
        · simp only [hr', Bool.false_eq_true, if_false, CredHealth.code] at h
          simp only [String.reduceEq, if_true, if_false, Option.some.injEq] at h
          subst h
          simp [provenance, credHealth, CredHealth.code, hr']

theorem assignStatus_total (GetCredResolver : String → GetCredResolverResult)
    (hwf : ConfigWhenFound GetCredResolver) (regedMetaMap : GoMap Bool)
    (aggr : AggregatedClusterMetadata) :
    ∃ aggr', assignStatus GetCredResolver regedMetaMap aggr = some aggr' := by
  obtain ⟨s, hs⟩ := getClusterInfoStatus_total GetCredResolver hwf aggr.Metadata.CredResolverId
  unfold assignStatus
  simp only [hs]
  split
  · split
    · exact ⟨_, rfl⟩
    · split
      · exact ⟨_, rfl⟩
      · split <;> exact ⟨_, rfl⟩
  · split
    · exact ⟨_, rfl⟩
    · split
      · exact ⟨_, rfl⟩
      · split <;> exact ⟨_, rfl⟩

theorem assignAll_cons_some (GetCredResolver : String → GetCredResolverResult)
    (regedMetaMap : GoMap Bool) (aggr : AggregatedClusterMetadata)
    (rest l' : List AggregatedClusterMetadata)
    (h : assignAll GetCredResolver regedMetaMap (aggr :: rest) = some l') :
    ∃ aggr' rest', l' = aggr' :: rest' ∧
      assignStatus GetCredResolver regedMetaMap aggr = some aggr' ∧
      assignAll GetCredResolver regedMetaMap rest = some rest' := by
  unfold assignAll at h
  cases h1 : assignStatus GetCredResolver regedMetaMap aggr with
  | none => simp [h1] at h
  | some aggr' =>
    cases h2 : assignAll GetCredResolver regedMetaMap rest with
    | none => simp [h1, h2] at h
    | some rest' =>
      simp only [h1, h2, Option.some.injEq] at h
      exact ⟨aggr', rest', h.symm, rfl, rfl⟩

theorem assignAll_map_metadata (GetCredResolver : String → GetCredResolverResult)
    (regedMetaMap : GoMap Bool) (l l' : List AggregatedClusterMetadata)
    (h : assignAll GetCredResolver regedMetaMap l = some l') :
    l'.map (fun m => m.Metadata) = l.map (fun m => m.Metadata) := by
  induction l generalizing l' with
  | nil =>
    simp only [assignAll, Option.some.injEq] at h
    subst h
    rfl
  | cons aggr rest ih =>
    obtain ⟨aggr', rest', rfl, h1, h2⟩ := assignAll_cons_some _ _ _ _ _ h
    simp only [List.map_cons, ih rest' h2, (assignStatus_some _ _ _ _ h1).1]

theorem assignAll_mem (GetCredResolver : String → GetCredResolverResult)
    (regedMetaMap : GoMap Bool) (l l' : List AggregatedClusterMetadata)
    (h : assignAll GetCredResolver regedMetaMap l = some l')
    (aggr' : AggregatedClusterMetadata) (hm : aggr' ∈ l') :
    ∃ aggr ∈ l, assignStatus GetCredResolver regedMetaMap aggr = some aggr' := by
  induction l generalizing l' with
  | nil =>
    simp only [assignAll, Option.some.injEq] at h
    subst h
    cases hm
  | cons aggr rest ih =>
    obtain ⟨a', rest', rfl, h1, h2⟩ := assignAll_cons_some _ _ _ _ _ h
    rcases List.mem_cons.1 hm with h3 | h3
    · subst h3
      exact ⟨aggr, List.mem_cons_self _ _, h1⟩
    · obtain ⟨a, ha, ha'⟩ := ih rest' h2 h3
      exact ⟨a, List.mem_cons_of_mem _ ha, ha'⟩

theorem assignAll_total (GetCredResolver : String → GetCredResolverResult)
    (hwf : ConfigWhenFound GetCredResolver) (regedMetaMap : GoMap Bool)
    (l : List AggregatedClusterMetadata) :
    ∃ l', assignAll GetCredResolver regedMetaMap l = some l' := by
  induction l with
  | nil => exact ⟨[], rfl⟩
  | cons aggr rest ih =>
    obtain ⟨a', ha'⟩ := assignStatus_total GetCredResolver hwf regedMetaMap aggr
    obtain ⟨rest', hrest⟩ := ih
    exact ⟨a' :: rest', by simp [assignAll, ha', hrest]⟩

theorem syncMetas_total (GetCredResolver : String → GetCredResolverResult)
    (hwf : ConfigWhenFound GetCredResolver) (resolvers : List ClusterMetadataResolver) :
    ∃ metas, syncMetas GetCredResolver resolvers = some metas :=
  assignAll_total GetCredResolver hwf _ _

/-! ### The records handed to the store -/

theorem GoMap.get_of_mem_values {β : Type} (m : GoMap β) (v : β) (h : v ∈ m.values) :
    ∃ k, m.get k = some v := by
  obtain ⟨e, he, rfl⟩ := List.mem_map.1 h
  exact ⟨e.1, getEntry_of_mem e.1 e.2 m.entries m.nodup he⟩

theorem GoMap.mem_keys_iff {β : Type} (m : GoMap β) (k : String) :
    k ∈ m.keys ↔ m.get k ≠ none := by
  unfold GoMap.keys GoMap.get
  rw [Ne, getEntry_eq_none_iff, not_not]

theorem names_values_eq_keys (rs : List ClusterMetadataResolver) :
    (aggregateClusters rs).availMetaMap.values.map (fun m => m.Metadata.ClusterName) =
      (aggregateClusters rs).availMetaMap.keys := by
  unfold GoMap.values GoMap.keys
  rw [List.map_map]
  apply List.map_congr_left
  intro e he
  have hg := getEntry_of_mem e.1 e.2 _ (aggregateClusters rs).availMetaMap.nodup he
  exact ((AccInv.aggregateClusters rs).avail_some e.1 e.2 hg).1

theorem syncMetas_names (GetCredResolver : String → GetCredResolverResult)
    (rs : List ClusterMetadataResolver) (metas : List AggregatedClusterMetadata)
    (h : syncMetas GetCredResolver rs = some metas) :
    metas.map (fun m => m.Metadata.ClusterName) = (aggregateClusters rs).availMetaMap.keys := by
  have h1 := assignAll_map_metadata _ _ _ _ h
  have h2 := congrArg (List.map (fun md : ClusterMetadata => md.ClusterName)) h1
  simp only [List.map_map] at h2
  rw [← names_values_eq_keys]
  exact h2

theorem syncMetas_records (GetCredResolver : String → GetCredResolverResult)
    (rs : List ClusterMetadataResolver) (metas : List AggregatedClusterMetadata)
    (h : syncMetas GetCredResolver rs = some metas) :
    (metas.map (fun m => m.Metadata.ClusterName)).Nodup ∧
    (∀ name, name ∈ metas.map (fun m => m.Metadata.ClusterName) ↔
      ∃ c ∈ contributions rs, c.2.ClusterName = name) ∧
    ∀ m ∈ metas,
      m.DataResolvers = sourceDescriptions rs m.Metadata.ClusterName ∧
      (provenance m.Status = Provenance.REGISTERED ↔
        ∃ c ∈ contributions rs, c.1.isKubeconfigResolver = true ∧
          c.2.ClusterName = m.Metadata.ClusterName) ∧
      getClusterInfoStatus GetCredResolver m.Metadata.CredResolverId =
        some (credHealth m.Status).code := by
  have hinv := AccInv.aggregateClusters rs
  have hnames := syncMetas_names GetCredResolver rs metas h
  refine ⟨?_, ?_, ?_⟩
  · rw [hnames]
    exact (aggregateClusters rs).availMetaMap.nodup
  · intro name
    rw [hnames, GoMap.mem_keys_iff, Ne, hinv.avail_none name]
    constructor
    · intro h0
      by_contra h1
      exact h0 (fun c hc hcn => h1 ⟨c, hc, hcn⟩)
    · rintro ⟨c, hc, hcn⟩ h0
      exact h0 c hc hcn
  · intro m hm
    obtain ⟨a, ha, hassign⟩ := assignAll_mem _ _ _ _ h m hm
    obtain ⟨k, hk⟩ := GoMap.get_of_mem_values _ a ha
    obtain ⟨hname, hdr⟩ := hinv.avail_some k a hk
    obtain ⟨h1, h2, h3, h4⟩ := assignStatus_some _ _ _ _ hassign
    refine ⟨?_, ?_, ?_⟩
    · rw [h2, h1, hdr, hname]
      rfl
    · rw [h3, h1, hinv.reged]
    · rw [h1]
      exact h4

theorem exampleCredStore_configWhenFound : ConfigWhenFound exampleCredStore := by
  intro credResolverId _ hf
  unfold exampleCredStore at hf ⊢
  split_ifs at hf ⊢ <;> simp_all

/-! ### C2, C10: status and provenance log of the handed records -/

/-- C2: every record handed to the store has provenance REGISTERED exactly when a
kubeconfig source that listed successfully contributed a record with its cluster name,
SUGGESTION otherwise, and the credential-health part of its status is the
classification of its merged credResolverId; the records are produced whenever the
credential lookup hands out a config for every id it reports as found. -/
theorem syncMetas_status (GetCredResolver : String → GetCredResolverResult)
    (rs : List ClusterMetadataResolver) :
    (ConfigWhenFound GetCredResolver → ∃ metas, syncMetas GetCredResolver rs = some metas) ∧
    ∀ metas, syncMetas GetCredResolver rs = some metas → ∀ m ∈ metas,
      (provenance m.Status = Provenance.REGISTERED ↔
        ∃ r ∈ rs, r.isKubeconfigResolver = true ∧ ∃ ms, r.ListClusters = .ok ms ∧
          ∃ md ∈ ms, md.ClusterName = m.Metadata.ClusterName) ∧
      (provenance m.Status = Provenance.SUGGESTION ↔
        ¬ ∃ r ∈ rs, r.isKubeconfigResolver = true ∧ ∃ ms, r.ListClusters = .ok ms ∧
          ∃ md ∈ ms, md.ClusterName = m.Metadata.ClusterName) ∧
      getClusterInfoStatus GetCredResolver m.Metadata.CredResolverId =
        some (credHealth m.Status).code := by
  refine ⟨fun hwf => syncMetas_total GetCredResolver hwf rs, ?_⟩
  intro metas h m hm
  obtain ⟨_, hreg, hcred⟩ := (syncMetas_records GetCredResolver rs metas h).2.2 m hm
  have hiff : (∃ c ∈ contributions rs, c.1.isKubeconfigResolver = true ∧
        c.2.ClusterName = m.Metadata.ClusterName) ↔
      ∃ r ∈ rs, r.isKubeconfigResolver = true ∧ ∃ ms, r.ListClusters = .ok ms ∧
        ∃ md ∈ ms, md.ClusterName = m.Metadata.ClusterName := by
    constructor
    · rintro ⟨c, hc, hk, hn⟩
      obtain ⟨h1, ms, h2, h3⟩ := (mem_contributions rs c).1 hc
      exact ⟨c.1, h1, hk, ms, h2, c.2, h3, hn⟩
    · rintro ⟨r, hr, hk, ms, h2, md, h3, hn⟩
      exact ⟨(r, md), (mem_contributions rs (r, md)).2 ⟨hr, ms, h2, h3⟩, hk, hn⟩
  have hreg' := hreg.trans hiff
  refine ⟨hreg', ?_, hcred⟩
  rw [← hreg']
  cases m.Status <;> simp [provenance]

/-- Witness for C2: Local and Vendor1 both list clusterA and cred1 is healthy, which
gives REGISTERED_OK with the merged id and tags; Vendor1 alone lists clusterB with the
unhealthy cred2, which gives SUGGESTION_NOTOK_CRED_RES_NOTOK. -/
theorem syncMetas_status_witness :
    syncMetas exampleCredStore [resolverLocal, resolverVendor1] =
      some [⟨⟨"clusterA", "cred1", some ⟨[("env", "prod")], by decide⟩⟩, ["Local", "Vendor1"],
        ClusterInformationStatus.REGISTERED_OK⟩] ∧
    syncMetas exampleCredStore [resolverVendor1B] =
      some [⟨⟨"clusterB", "cred2", none⟩, ["Vendor1"],
        ClusterInformationStatus.SUGGESTION_NOTOK_CRED_RES_NOTOK⟩] ∧
    (∃ metas, syncMetas exampleCredStore [resolverLocal, resolverVendor1] = some metas) ∧
    getClusterInfoStatus exampleCredStore "cred2" = some "not_ok" :=
  ⟨by decide, by decide,
   (syncMetas_status exampleCredStore [resolverLocal, resolverVendor1]).1
     exampleCredStore_configWhenFound,
   ((syncMetas_status exampleCredStore [resolverVendor1B]).2
     [⟨⟨"clusterB", "cred2", none⟩, ["Vendor1"],
        ClusterInformationStatus.SUGGESTION_NOTOK_CRED_RES_NOTOK⟩] (by decide)
     ⟨⟨"clusterB", "cred2", none⟩, ["Vendor1"],
        ClusterInformationStatus.SUGGESTION_NOTOK_CRED_RES_NOTOK⟩
     (List.mem_singleton.2 rfl)).2.2⟩

/-- C10: the records handed to the store carry pairwise distinct cluster names, the
names are exactly those listed by a source whose listing succeeded, and the
DataResolvers of each record are the descriptions of the sources that contributed a
record with its name, in source order, one entry per contributed record, hence at
least one; the records are produced whenever the credential lookup hands out a config
for every id it reports as found. -/
theorem syncMetas_provenance_log (GetCredResolver : String → GetCredResolverResult)
    (rs : List ClusterMetadataResolver) :
    (ConfigWhenFound GetCredResolver → ∃ metas, syncMetas GetCredResolver rs = some metas) ∧
    ∀ metas, syncMetas GetCredResolver rs = some metas →
      (metas.map (fun m => m.Metadata.ClusterName)).Nodup ∧
      (∀ name, name ∈ metas.map (fun m => m.Metadata.ClusterName) ↔
        ∃ r ∈ rs, ∃ ms, r.ListClusters = .ok ms ∧ ∃ md ∈ ms, md.ClusterName = name) ∧
      ∀ m ∈ metas, m.DataResolvers = sourceDescriptions rs m.Metadata.ClusterName ∧
        1 ≤ m.DataResolvers.length := by
  refine ⟨fun hwf => syncMetas_total GetCredResolver hwf rs, ?_⟩
  intro metas h
  obtain ⟨hnodup, hnames, hrec⟩ := syncMetas_records GetCredResolver rs metas h
  refine ⟨hnodup, ?_, ?_⟩
  · intro name
    rw [hnames name]
    constructor
    · rintro ⟨c, hc, hn⟩
      obtain ⟨h1, ms, h2, h3⟩ := (mem_contributions rs c).1 hc
      exact ⟨c.1, h1, ms, h2, c.2, h3, hn⟩
    · rintro ⟨r, hr, ms, h2, md, h3, hn⟩
      exact ⟨(r, md), (mem_contributions rs (r, md)).2 ⟨hr, ms, h2, h3⟩, hn⟩
  · intro m hm
    have hdr := (hrec m hm).1
    refine ⟨hdr, ?_⟩
    have hmem : m.Metadata.ClusterName ∈ metas.map (fun m => m.Metadata.ClusterName) :=
      List.mem_map.2 ⟨m, hm, rfl⟩
    obtain ⟨c, hc, hn⟩ := (hnames _).1 hmem
    rw [hdr]
    unfold sourceDescriptions
    rw [List.length_map]
    apply List.length_pos_of_mem (a := c)
    rw [List.mem_filter]
    exact ⟨hc, by simpa using hn⟩

/-- Witness for C10: Local then Vendor1 both list clusterA; the one record handed over
has DataResolvers Local, Vendor1, and a source listing the same cluster twice is logged
twice. -/
theorem syncMetas_provenance_log_witness :
    (syncMetas exampleCredStore [resolverLocal, resolverVendor1]).map
      (fun metas => metas.map (fun m => (m.Metadata.ClusterName, m.DataResolvers))) =
      some [("clusterA", ["Local", "Vendor1"])] ∧
    (syncMetas exampleCredStore [resolverVendor1, resolverLocal, resolverVendor1]).map
      (fun metas => metas.map (fun m => (m.Metadata.ClusterName, m.DataResolvers))) =
      some [("clusterA", ["Vendor1", "Local", "Vendor1"])] ∧
    (∃ metas, syncMetas exampleCredStore [resolverLocal, resolverVendor1] = some metas) ∧
    sourceDescriptions [resolverLocal, resolverVendor1] "clusterA" = ["Local", "Vendor1"] :=
  ⟨by decide, by decide,
   (syncMetas_provenance_log exampleCredStore [resolverLocal, resolverVendor1]).1
     exampleCredStore_configWhenFound,
   (((syncMetas_provenance_log exampleCredStore [resolverLocal, resolverVendor1]).2
     [⟨⟨"clusterA", "cred1", some ⟨[("env", "prod")], by decide⟩⟩, ["Local", "Vendor1"],
        ClusterInformationStatus.REGISTERED_OK⟩] (by decide)).2.2
     ⟨⟨"clusterA", "cred1", some ⟨[("env", "prod")], by decide⟩⟩, ["Local", "Vendor1"],
        ClusterInformationStatus.REGISTERED_OK⟩
     (List.mem_singleton.2 rfl)).1.symm⟩

/-! ### C7, C6: failures of sources and of persistence -/

theorem aggregateFrom_filter_listed (acc : SyncAcc) (rs : List ClusterMetadataResolver) :
    aggregateFrom acc (rs.filter (fun r => r.listed)) = aggregateFrom acc rs := by
  induction rs generalizing acc with
  | nil => rfl
  | cons r rs ih =>
    have hcons : ∀ a (l : List ClusterMetadataResolver),
        aggregateFrom a (r :: l) = aggregateFrom (foldResolver a r) l := fun _ _ => rfl
    cases hr : r.ListClusters with
    | error e =>
      have hl : r.listed = false := by simp [ClusterMetadataResolver.listed, hr]
      have hf : foldResolver acc r = acc := by simp [foldResolver, hr]
      rw [List.filter_cons_of_neg (by simp [hl]), hcons, hf, ih]
    | ok ms =>
      have hl : r.listed = true := by simp [ClusterMetadataResolver.listed, hr]
      rw [List.filter_cons_of_pos (by simp [hl]), hcons, hcons, ih]

theorem syncMetas_filter_listed (GetCredResolver : String → GetCredResolverResult)
    (rs : List ClusterMetadataResolver) :
    syncMetas GetCredResolver (rs.filter (fun r => r.listed)) =
      syncMetas GetCredResolver rs := by
  unfold syncMetas aggregateClusters
  rw [aggregateFrom_filter_listed]

theorem syncWith_of_metas (s : ClusterMetadataService) (rs : List ClusterMetadataResolver)
    (cache : AggregatedClusterMetadataStorage) (metas : List AggregatedClusterMetadata)
    (h : syncMetas s.GetCredResolver rs = some metas) :
    syncWith s rs cache =
      some (s.saveErr, ((cache.ClearAndSet metas).SaveStorage s.saveErr).2) := by
  unfold syncWith
  simp only [h]
  cases hs : s.saveErr <;> simp [AggregatedClusterMetadataStorage.SaveStorage]

/-- C7: the records handed to the store, and the whole outcome of the pass, are those
of the same pass with every source whose `ListClusters` failed removed; when the
sources could be built, the error returned is the outcome of the durable write alone,
so a failed listing does not make the sync fail. -/
theorem SyncAvailableClusters_skips_failed (s : ClusterMetadataService)
    (rs : List ClusterMetadataResolver) (cache : AggregatedClusterMetadataStorage)
    (hrs : ListMetadataResolvers s = .ok rs) :
    syncMetas s.GetCredResolver rs =
      syncMetas s.GetCredResolver (rs.filter (fun r => r.listed)) ∧
    SyncAvailableClusters s cache = syncWith s (rs.filter (fun r => r.listed)) cache ∧
    (ConfigWhenFound s.GetCredResolver →
      ∃ metas, syncMetas s.GetCredResolver (rs.filter (fun r => r.listed)) = some metas ∧
        SyncAvailableClusters s cache =
          some (s.saveErr, ((cache.ClearAndSet metas).SaveStorage s.saveErr).2)) := by
  have h1 := syncMetas_filter_listed s.GetCredResolver rs
  have h2 : syncWith s (rs.filter (fun r => r.listed)) cache = syncWith s rs cache := by
    unfold syncWith
    rw [h1]
  have h3 : SyncAvailableClusters s cache = syncWith s rs cache := by
    unfold SyncAvailableClusters
    rw [hrs]
  refine ⟨h1.symm, h3.trans h2.symm, ?_⟩
  intro hwf
  obtain ⟨metas, hm⟩ := syncMetas_total s.GetCredResolver hwf rs
  refine ⟨metas, h1.trans hm, ?_⟩
  rw [h3]
  exact syncWith_of_metas s rs cache metas hm

/-- Witness for C7: Vendor1 fails and Local succeeds; the sync returns no error and the
store holds exactly the cluster of Local. -/
theorem SyncAvailableClusters_skips_failed_witness :
    SyncAvailableClusters (exampleService (.ok resolverVendor1Failing)) exampleCache =
      some (none,
        ⟨[⟨⟨"clusterA", "", some GoMap.empty⟩, ["Local"],
            ClusterInformationStatus.REGISTERED_NOTOK_NO_CRED_RESOLVER⟩],
         [⟨⟨"clusterA", "", some GoMap.empty⟩, ["Local"],
            ClusterInformationStatus.REGISTERED_NOTOK_NO_CRED_RESOLVER⟩]⟩) ∧
    syncMetas exampleCredStore [resolverLocal, resolverVendor1Failing] =
      syncMetas exampleCredStore [resolverLocal] ∧
    ∃ metas, syncMetas exampleCredStore [resolverLocal] = some metas ∧
      SyncAvailableClusters (exampleService (.ok resolverVendor1Failing)) exampleCache =
        some (none, ((exampleCache.ClearAndSet metas).SaveStorage none).2) :=
  ⟨by decide,
   (SyncAvailableClusters_skips_failed (exampleService (.ok resolverVendor1Failing))
     [resolverLocal, resolverVendor1Failing] exampleCache rfl).1,
   (SyncAvailableClusters_skips_failed (exampleService (.ok resolverVendor1Failing))
     [resolverLocal, resolverVendor1Failing] exampleCache rfl).2.2
     exampleCredStore_configWhenFound⟩

/-- Counterexample to C6 as stated: the AWS source of the one stored credential
configuration cannot be built; the sync returns that error although the durable write
would have succeeded, and the store keeps its old snapshot. -/
theorem SyncAvailableClusters_source_construction_error :
    (exampleService (.error "cannot build aws resolver")).saveErr = none ∧
    SyncAvailableClusters (exampleService (.error "cannot build aws resolver")) exampleCache =
      some (some "cannot build aws resolver", exampleCache) := by
  decide

/-- C6 (amended): an error of `ListMetadataResolvers` is returned as it is and the store
is left untouched; when the sources could be built, the records handed to the store
are those of the sources whose `ListClusters` succeeded and the error returned is the
outcome of the durable write, whatever the `ListClusters` calls did.  So the sync
returns an error exactly when building the sources or persisting the snapshot fails. -/
theorem SyncAvailableClusters_error (s : ClusterMetadataService)
    (cache : AggregatedClusterMetadataStorage)
    (hwf : ConfigWhenFound s.GetCredResolver) :
    (∀ e, ListMetadataResolvers s = .error e →
      SyncAvailableClusters s cache = some (some e, cache)) ∧
    (∀ rs, ListMetadataResolvers s = .ok rs →
      ∃ metas, syncMetas s.GetCredResolver (rs.filter (fun r => r.listed)) = some metas ∧
        SyncAvailableClusters s cache =
          some (s.saveErr, ((cache.ClearAndSet metas).SaveStorage s.saveErr).2)) ∧
    ((∃ e cache', SyncAvailableClusters s cache = some (some e, cache')) ↔
      ((∃ e, ListMetadataResolvers s = .error e) ∨ s.saveErr ≠ none)) := by
  have hA : ∀ e, ListMetadataResolvers s = .error e →
      SyncAvailableClusters s cache = some (some e, cache) := by
    intro e he
    unfold SyncAvailableClusters
    rw [he]
  have hB : ∀ rs, ListMetadataResolvers s = .ok rs →
      ∃ metas, syncMetas s.GetCredResolver (rs.filter (fun r => r.listed)) = some metas ∧
        SyncAvailableClusters s cache =
          some (s.saveErr, ((cache.ClearAndSet metas).SaveStorage s.saveErr).2) := by
    intro rs hrs
    obtain ⟨metas, hm⟩ := syncMetas_total s.GetCredResolver hwf rs
    refine ⟨metas, (syncMetas_filter_listed s.GetCredResolver rs).trans hm, ?_⟩
    unfold SyncAvailableClusters
    rw [hrs]
    exact syncWith_of_metas s rs cache metas hm
  refine ⟨hA, hB, ?_⟩
  cases hl : ListMetadataResolvers s with
  | error e =>
    constructor
    · intro _
      exact Or.inl ⟨e, rfl⟩
    · intro _
      exact ⟨e, cache, hA e hl⟩
  | ok rs =>
    obtain ⟨metas, _, hsync⟩ := hB rs hl
    rw [hsync]
    constructor
    · rintro ⟨e, cache', h⟩
      right
      simp only [Option.some.injEq, Prod.mk.injEq] at h
      rw [h.1]
      simp
    · rintro (⟨e, he⟩ | h)
      · cases he
      · obtain ⟨e, he⟩ := Option.ne_none_iff_exists'.1 h
        exact ⟨e, _, by rw [he]⟩

/-- Witness for C6 (amended): with a source that cannot be built the sync returns that
error; with a source whose listing fails it returns none. -/
theorem SyncAvailableClusters_error_witness :
    SyncAvailableClusters (exampleService (.error "cannot build aws resolver")) exampleCache =
      some (some "cannot build aws resolver", exampleCache) ∧
    ((∃ e cache', SyncAvailableClusters (exampleService (.ok resolverVendor1Failing))
        exampleCache = some (some e, cache')) ↔
      ((∃ e, ListMetadataResolvers (exampleService (.ok resolverVendor1Failing)) = .error e) ∨
        (exampleService (.ok resolverVendor1Failing)).saveErr ≠ none)) :=
  ⟨(SyncAvailableClusters_error (exampleService (.error "cannot build aws resolver"))
      exampleCache exampleCredStore_configWhenFound).1 "cannot build aws resolver" rfl,
   (SyncAvailableClusters_error (exampleService (.ok resolverVendor1Failing))
      exampleCache exampleCredStore_configWhenFound).2.2⟩

end KubeconfigUpdater
